import Mathlib

/-!
Shallow embedding of `hermit.py` (the hermit coordinator daemon).

Python strings are modelled as `List Char` (ASCII-faithful for every string
the program manipulates), instants as `Int` (seconds since the epoch; the
program stores ISO strings whose lexicographic order agrees with the
chronological order of the instants they denote), and the SQLite tables as
Lean lists of records.  `datetime.fromisoformat` is an external library
call and is modelled as an abstract parameter `fromiso`.
-/

namespace Hermit

/-- ASCII whitespace recognised by Python's `str.strip` / `int`. -/
def isPySpace (c : Char) : Bool :=
  c.toNat == 32 || c.toNat == 9 || c.toNat == 10 || c.toNat == 13 ||
    c.toNat == 11 || c.toNat == 12

/-- Python `str.strip()` (ASCII whitespace). -/
def pyStrip (s : List Char) : List Char :=
  ((s.dropWhile isPySpace).reverse.dropWhile isPySpace).reverse

/-- Python `str.lower()` (ASCII letters). -/
def pyLower (s : List Char) : List Char :=
  s.map Char.toLower

/-- Python `str.startswith(pat)`: first argument is the pattern. -/
def pyStartswith : List Char → List Char → Bool
  | [], _ => true
  | _ :: _, [] => false
  | p :: ps, c :: cs => p == c && pyStartswith ps cs

/-- Python `str.endswith(pat)`: first argument is the pattern. -/
def pyEndswith (pat s : List Char) : Bool :=
  pyStartswith pat.reverse s.reverse

/-- ASCII decimal digit test used by Python's `int`. -/
def isDigitCh (c : Char) : Bool :=
  48 ≤ c.toNat && c.toNat ≤ 57

/-- Numeric value of an ASCII digit. -/
def digitVal (c : Char) : Nat :=
  c.toNat - 48

/-- Digit run of a Python integer literal after the first digit: digits with
single underscores allowed between digits (`int("1_0") = 10`,
`int("1__0")` and `int("1_")` raise). -/
def pyIntDigitsGo : List Char → Nat → Option Nat
  | [], acc => some acc
  | c :: rest, acc =>
    if c == '_' then
      match rest with
      | [] => none
      | c2 :: rest2 =>
        if isDigitCh c2 then pyIntDigitsGo rest2 (acc * 10 + digitVal c2) else none
    else if isDigitCh c then pyIntDigitsGo rest (acc * 10 + digitVal c) else none

/-- Unsigned digit part of Python `int`: at least one digit, must start with
a digit. -/
def pyIntDigits : List Char → Option Nat
  | [] => none
  | c :: rest => if isDigitCh c then pyIntDigitsGo rest (digitVal c) else none

/-- Sign handling of Python `int` (one optional leading `+` or `-`). -/
def pyIntSigned : List Char → Option Int
  | '+' :: rest => (pyIntDigits rest).map (fun n => (n : Int))
  | '-' :: rest => (pyIntDigits rest).map (fun n => -(n : Int))
  | s => (pyIntDigits s).map (fun n => (n : Int))

/-- Python `int(s)`: strips surrounding whitespace, then an optional sign and
a nonempty digit run; `none` models the `ValueError` raised otherwise. -/
def pyInt (s : List Char) : Option Int :=
  pyIntSigned (pyStrip s)

/-- Canonical decimal digits of a natural number (no sign, no underscores),
as produced by Python's `str` of a nonnegative `int`. -/
def natDigitChar (d : Nat) : Char :=
  match d with
  | 0 => '0' | 1 => '1' | 2 => '2' | 3 => '3' | 4 => '4'
  | 5 => '5' | 6 => '6' | 7 => '7' | 8 => '8' | _ => '9'

def natDigits (n : Nat) : List Char :=
  if _h : n < 10 then [natDigitChar n]
  else natDigits (n / 10) ++ [natDigitChar (n % 10)]
decreasing_by
  exact Nat.div_lt_self (by omega) (by omega)

/-- Canonical decimal literal of an integer, as produced by Python's `str`. -/
def intLit (n : Int) : List Char :=
  if n < 0 then '-' :: natDigits n.natAbs else natDigits n.toNat

/-- Parsed schedule expression: the tagged variant built by `parse_cron`
(`{"type": "interval", "minutes": m}`, `{"type": "once", "minutes": m}` or
`{"type": "once", "datetime": iso}`). -/
inductive CronSpec where
  | interval (minutes : Int)
  | once_rel (minutes : Int)
  | once_abs (instant : Int)
deriving DecidableEq

/-- Body of `parse_cron` from `hermit.py` (lines 150-180) after its first
line `cron = cron.strip()`; `cron` here is the stripped expression, and
`time_str` (`cron[5:].strip()`) is written out at each of its uses.
`fromiso` models the external `datetime.fromisoformat`, returning the
denoted instant or `none` for the `ValueError` it raises on unparsable
input. -/
def parse_cron_stripped (fromiso : List Char → Option Int)
    (cron : List Char) : Option CronSpec :=
  if pyLower cron = ("@hourly").data then some (CronSpec.interval 60)
  else if pyLower cron = ("@daily").data then some (CronSpec.interval 1440)
  else if pyLower cron = ("@weekly").data then some (CronSpec.interval 10080)
  else if pyStartswith (("*/").data) (pyLower cron) then
    match pyInt (cron.drop 2) with
    | some m => if 0 < m then some (CronSpec.interval m) else none
    | none => none
  else if pyStartswith (("once:").data) (pyLower cron) then
    if pyStartswith (("+").data) (pyStrip (cron.drop 5))
        && pyEndswith (("m").data) (pyStrip (cron.drop 5)) then
      match pyInt (((pyStrip (cron.drop 5)).drop 1).dropLast) with
      | some m => some (CronSpec.once_rel m)
      | none => none
    else
      match fromiso (pyStrip (cron.drop 5)) with
      | some t => some (CronSpec.once_abs t)
      | none => none
  else none

/-- `parse_cron` from `hermit.py` (lines 150-180): strip the expression,
then dispatch on its shape. -/
def parse_cron (fromiso : List Char → Option Int) (cron0 : List Char) :
    Option CronSpec :=
  parse_cron_stripped fromiso (pyStrip cron0)

/-- Branch of `calc_next_run` on an already-parsed spec (`hermit.py` lines
191-202): an interval is always recomputed from `base` regardless of
`after_run`; a one-shot is exhausted after a run, otherwise resolves to
`base + minutes*60` for the relative form or the stored instant for the
absolute form. -/
def next_from_spec (spec : CronSpec) (base : Int) (after_run : Bool) :
    Option Int :=
  match spec with
  | CronSpec.interval m => some (base + m * 60)
  | CronSpec.once_rel m => if after_run then none else some (base + m * 60)
  | CronSpec.once_abs t => if after_run then none else some t

/-- `calc_next_run` from `hermit.py` (lines 183-202) with the evaluation
instant `from_time` passed explicitly (the source defaults it to
`datetime.now()`). -/
def calc_next_run (fromiso : List Char → Option Int) (cron : List Char)
    (from_time : Int) (after_run : Bool) : Option Int :=
  match parse_cron fromiso cron with
  | none => none
  | some spec => next_from_spec spec from_time after_run

/-- Row of the `groups` table (`name` and `folder` are UNIQUE; the numeric
rowid and `created_at` play no role in the claims). -/
structure Group where
  name : List Char
  folder : List Char
  session_id : Option (List Char)
deriving DecidableEq

/-- Folder slug derived in `get_or_create_group`:
`name.lower().replace(" ", "-")`. -/
def slug_of (name : List Char) : List Char :=
  (pyLower name).map (fun c => if c = ' ' then '-' else c)

/-- `SELECT * FROM groups WHERE name = ?` (first matching row). -/
def find_group (groups : List Group) (name : List Char) : Option Group :=
  groups.find? (fun g => g.name == name)

/-- Sequential (race-free) run of `get_or_create_group` (`hermit.py` lines
104-127): select by name, return the row if present, otherwise insert
`(name, folder)` with a null session and return the new row. -/
def get_or_create_group (groups : List Group) (name : List Char) :
    Group × List Group :=
  match find_group groups name with
  | some g => (g, groups)
  | none =>
    let g : Group := { name := name, folder := slug_of name, session_id := none }
    (g, groups ++ [g])

/-- `update_session` (`hermit.py` lines 130-135):
`UPDATE groups SET session_id = ? WHERE name = ?`.  The rowcount is not
inspected and the function returns nothing, so a missing group is a silent
no-op. -/
def update_session (groups : List Group) (name : List Char)
    (sid : Option (List Char)) : List Group :=
  groups.map (fun g => if g.name == name then { g with session_id := sid } else g)

def active_status : List Char := ("active").data
def completed_status : List Char := ("completed").data

/-- Row of the `tasks` table. -/
structure Task where
  id : List Char
  group_name : List Char
  cron : List Char
  prompt : List Char
  next_run : Option Int
  last_run : Option Int
  last_result : Option (List Char)
  status : List Char
deriving DecidableEq

/-- `WHERE status = 'active' AND next_run IS NOT NULL AND next_run <= now`. -/
def isDue (now : Int) (t : Task) : Bool :=
  t.status == active_status &&
    (match t.next_run with
     | some v => decide (v ≤ now)
     | none => false)

/-- `get_due_tasks` (`hermit.py` lines 247-256).  The SQL query has no
`ORDER BY`, so the storage engine is free to scan the rows in any order (for
example via the `idx_tasks_next_run` index); `scan` is the engine-chosen row
order, a permutation of the table. -/
def get_due_tasks (scan : List Task) (now : Int) : List Task :=
  scan.filter (isDue now)

/-- Response of `create_task`: the `{"status": "error", "error": msg}` or
`{"status": "ok", "task_id": id, "next_run": t}` dict. -/
inductive CreateResult where
  | err (msg : List Char)
  | ok (task_id : List Char) (next_run : Option Int)
deriving DecidableEq

def invalid_cron_msg (cron : List Char) : List Char :=
  ("Invalid cron: ").data ++ cron ++
    (". Use @hourly, @daily, @weekly, */N, once:+Nm, or once:DATETIME").data

/-- `create_task` (`hermit.py` lines 205-222).  `task_id` models the
generated `str(uuid.uuid4())[:8]` and `now` the implicit `datetime.now()`
used by `calc_next_run`'s default argument.  An invalid expression returns
the error dict before any database access. -/
def create_task (fromiso : List Char → Option Int) (tasks : List Task)
    (group_name cron prompt task_id : List Char) (now : Int) :
    CreateResult × List Task :=
  match parse_cron fromiso cron with
  | none => (CreateResult.err (invalid_cron_msg cron), tasks)
  | some _ =>
    let next_run := calc_next_run fromiso cron now false
    (CreateResult.ok task_id next_run,
     tasks ++ [{ id := task_id, group_name := group_name, cron := cron,
                 prompt := prompt, next_run := next_run, last_run := none,
                 last_result := none, status := active_status }])

/-- Per-row effect of the `UPDATE tasks SET last_run = ?, last_result = ?,
next_run = ?, status = ? WHERE id = ?` issued by `update_task_after_run`. -/
def apply_run_update (fromiso : List Char → Option Int)
    (task_id result cron : List Char) (now : Int) (t : Task) : Task :=
  let next_run := calc_next_run fromiso cron now true
  let status := if next_run = none then completed_status else active_status
  if t.id == task_id then
    { t with last_run := some now, last_result := some (result.take 500),
             next_run := next_run, status := status }
  else t

/-- `update_task_after_run` (`hermit.py` lines 331-345) with the execution
instant `now` passed explicitly. -/
def update_task_after_run (fromiso : List Char → Option Int)
    (tasks : List Task) (task_id result cron : List Char) (now : Int) :
    List Task :=
  tasks.map (apply_run_update fromiso task_id result cron now)

/-- `SELECT` of a task row by primary key. -/
def get_by_id (tasks : List Task) (x : List Char) : Option Task :=
  tasks.find? (fun t => t.id == x)

/-- Value returned by `run_sandbox` (`hermit.py` lines 443-481): always one
of the success dict `{"status": "success", "result": r, "session_id": s?}`
or the error dict `{"status": "error", "error": msg}`; it never raises past
this boundary (timeouts and nonzero exits are mapped to the error dict). -/
inductive SandboxRes where
  | success (result : List Char) (session_id : Option (List Char))
  | error (msg : List Char)
deriving DecidableEq

/-- `result.get("result", result.get("error", ""))` (scheduler, line 525). -/
def result_text : SandboxRes → List Char
  | SandboxRes.success r _ => r
  | SandboxRes.error m => m

/-- Truthiness test `if result.get("session_id"):` (line 530): `None`, a
missing key and the empty string are all falsy. -/
def truthy_session : SandboxRes → Option (List Char)
  | SandboxRes.success _ (some sid) => if sid = [] then none else some sid
  | SandboxRes.success _ none => none
  | SandboxRes.error _ => none

/-- Environment of one due task's processing inside a scheduler tick:
`runs res` means every store operation succeeds and the sandbox returns
`res`; `raises` means the first store operation of the task
(`get_or_create_group`) raises an exception, which the source's
tick-level `except` then catches. -/
inductive TaskOracle where
  | runs (res : SandboxRes)
  | raises

/-- Shared daemon state: the two SQLite tables. -/
structure DB where
  groups : List Group
  tasks : List Task
deriving DecidableEq

/-- Body of the scheduler's per-task work (`hermit.py` lines 519-534):
resolve the group, run the sandbox, update the session token if a truthy
one came back, then `update_task_after_run`.  (The transcript append is an
external file write with no bearing on the stores.) -/
def run_one_task (fromiso : List Char → Option Int) (db : DB) (t : Task)
    (res : SandboxRes) (now : Int) : DB :=
  let groups1 := (get_or_create_group db.groups t.group_name).2
  let groups2 :=
    match truthy_session res with
    | some sid => update_session groups1 t.group_name (some sid)
    | none => groups1
  let tasks1 := update_task_after_run fromiso db.tasks t.id (result_text res) t.cron now
  { groups := groups2, tasks := tasks1 }

/-- Sequential processing of the due list fetched at the start of a tick.
The `try`/`except` of `run_scheduler` wraps the whole `for` loop, so an
exception (`TaskOracle.raises`) abandons the remaining due tasks of the
tick, leaving the state as it was before the failing task. -/
def tick_go (fromiso : List Char → Option Int) (db : DB) (due : List Task)
    (oracle : Nat → TaskOracle) (i : Nat) (now : Int) : DB :=
  match due with
  | [] => db
  | t :: rest =>
    match oracle i with
    | TaskOracle.raises => db
    | TaskOracle.runs res =>
      tick_go fromiso (run_one_task fromiso db t res now) rest oracle (i + 1) now

/-- One iteration of the `while self.running` loop of `run_scheduler`
(`hermit.py` lines 512-538), with the engine scanning the table in row
order. -/
def scheduler_tick (fromiso : List Char → Option Int) (db : DB)
    (oracle : Nat → TaskOracle) (now : Int) : DB :=
  tick_go fromiso db (get_due_tasks db.tasks now) oracle 0 now

/-- The scheduler loop: the tick-level `except` makes every iteration run
regardless of the outcome of earlier ones (`oracles k` and `times k` are
tick `k`'s environment). -/
def run_scheduler (fromiso : List Char → Option Int) (db : DB)
    (oracles : Nat → Nat → TaskOracle) (times : Nat → Int) : Nat → DB
  | 0 => db
  | k + 1 =>
    scheduler_tick fromiso (run_scheduler fromiso db oracles times k)
      (oracles k) (times k)

/-- Progress of one concurrent `get_or_create_group` invocation:
it has not started, it has run its `SELECT` (remembering the row it saw),
or it has finished - either returning a group or raising
`sqlite3.IntegrityError` from an `INSERT` that violated `UNIQUE(name)`. -/
inductive CallerPhase where
  | start
  | selected (row : Option Group)
  | done_ok (g : Group)
  | done_err
deriving DecidableEq

/-- Shared state of N concurrent `get_or_create_group(name)` invocations. -/
structure RaceState where
  groups : List Group
  callers : List CallerPhase
deriving DecidableEq

/-- One atomic step of caller `i`.  Each SQL statement of
`get_or_create_group` is atomic in SQLite, but nothing serialises the
select-then-insert sequence: a caller that saw no row attempts the
`INSERT`, which raises `IntegrityError` if another caller's row with the
same name committed in between. -/
def caller_step (name : List Char) (st : RaceState) (i : Nat) : RaceState :=
  match st.callers[i]? with
  | none => st
  | some ph =>
    match ph with
    | CallerPhase.start =>
      { st with callers := st.callers.set i (CallerPhase.selected (find_group st.groups name)) }
    | CallerPhase.selected (some g) =>
      { st with callers := st.callers.set i (CallerPhase.done_ok g) }
    | CallerPhase.selected none =>
      match find_group st.groups name with
      | some _ => { st with callers := st.callers.set i CallerPhase.done_err }
      | none =>
        let g : Group := { name := name, folder := slug_of name, session_id := none }
        { groups := st.groups ++ [g], callers := st.callers.set i (CallerPhase.done_ok g) }
    | CallerPhase.done_ok _ => st
    | CallerPhase.done_err => st

/-- Run an interleaving: the schedule lists which caller takes the next
atomic step. -/
def run_race (name : List Char) (st : RaceState) : List Nat → RaceState
  | [] => st
  | i :: rest => run_race name (caller_step name st i) rest

/-- The one row `get_or_create_group(name)` ever inserts. -/
def race_canonical (name : List Char) : Group :=
  { name := name, folder := slug_of name, session_id := none }

/-- `SELECT COUNT(*) FROM groups WHERE name = ?`. -/
def race_count (name : List Char) (groups : List Group) : Nat :=
  (groups.filter (fun g => g.name == name)).length

/-- Inductive invariant of the concurrent `get_or_create_group(name)` runs
starting from a store `g0`: at most one row named `name` ever exists, every
row beyond `g0` is the canonical one, a caller that saw a row saw the
canonical one in a store already holding it, every successfully finished
caller holds the canonical row, and any finished caller witnesses that the
row exists. -/
def race_inv (name : List Char) (g0 : List Group) (st : RaceState) : Prop :=
  race_count name st.groups ≤ 1 ∧
  (∀ g ∈ st.groups, g ∈ g0 ∨ g = race_canonical name) ∧
  (∀ ph ∈ st.callers,
      (∀ g, ph = CallerPhase.selected (some g) →
        g = race_canonical name ∧ 1 ≤ race_count name st.groups) ∧
      (∀ g, ph = CallerPhase.done_ok g → g = race_canonical name) ∧
      ((ph = CallerPhase.done_err ∨ ∃ g, ph = CallerPhase.done_ok g) →
        1 ≤ race_count name st.groups))

/-- Status field of a protocol response dict. -/
inductive RespStatus where
  | ok
  | error
deriving DecidableEq

/-- The `task_add` branch of `Daemon.handle_request` (`hermit.py` lines
575-580): it delegates straight to `create_task` with the request's fields
(missing fields default to `"default"` / `""`); no prompt validation
happens here. -/
def handle_task_add (fromiso : List Char → Option Int) (tasks : List Task)
    (group cron prompt task_id : List Char) (now : Int) :
    CreateResult × List Task :=
  create_task fromiso tasks group cron prompt task_id now

/-- The `new_session` branch of `Daemon.handle_request` (`hermit.py` lines
570-573): unconditionally calls `update_session(group, None)` and replies
with an ok-status message, whether or not the group exists. -/
def handle_new_session (groups : List Group) (group_name : List Char) :
    (RespStatus × List Char) × List Group :=
  ((RespStatus.ok, ("Session cleared for ").data ++ group_name),
   update_session groups group_name none)

/-- `" ".join(words)`. -/
def join_space : List (List Char) → List Char
  | [] => []
  | [w] => w
  | w :: ws => w ++ ' ' :: join_space ws

/-- Prompt that the CLI `cmd_task_add` (`hermit.py` lines 800-819) would
put in the request it sends, or `none` when it exits with an error instead:
`prompt = " ".join(args.prompt) if args.prompt else None` followed by
`if not prompt: sys.exit(1)`, so an empty word list and an empty joined
string are both rejected client-side. -/
def cmd_task_add_request (words : List (List Char)) : Option (List Char) :=
  if words = [] then none
  else
    let prompt := join_space words
    if prompt = [] then none else some prompt

/-- Specs with no further run once fired (the `"once"` type tag). -/
def is_one_shot : CronSpec → Bool
  | CronSpec.interval _ => false
  | CronSpec.once_rel _ => true
  | CronSpec.once_abs _ => true

/-- `10 ^ (number of decimal digits of n)`. -/
def pw10 (n : Nat) : Nat :=
  if _h : n < 10 then 10 else pw10 (n / 10) * 10
decreasing_by
  exact Nat.div_lt_self (by omega) (by omega)

/-- A `fromisoformat` model that rejects every string; used to instantiate
witnesses whose schedule expressions never reach the absolute-datetime
branch. -/
def iso_none : List Char → Option Int := fun _ => none

/-- A `fromisoformat` model that maps every string to the instant 0; used to
instantiate witnesses that exercise the absolute-datetime branch. -/
def iso_zero : List Char → Option Int := fun _ => some 0

/-- Concrete table for the due-query order analysis: the first-created task
has the later `next_run`. -/
def c1_task_a : Task :=
  { id := ("a1").data, group_name := ("g").data, cron := ("*/5").data,
    prompt := ("p").data, next_run := some 10, last_run := none,
    last_result := none, status := active_status }

def c1_task_b : Task :=
  { id := ("b2").data, group_name := ("g").data, cron := ("*/5").data,
    prompt := ("p").data, next_run := some 5, last_run := none,
    last_result := none, status := active_status }

/-- Two due tasks for the scheduler-isolation analysis. -/
def c2_task_a : Task :=
  { id := ("a1").data, group_name := ("g").data, cron := ("@hourly").data,
    prompt := ("p1").data, next_run := some 10, last_run := none,
    last_result := none, status := active_status }

def c2_task_b : Task :=
  { id := ("b2").data, group_name := ("g").data, cron := ("@hourly").data,
    prompt := ("p2").data, next_run := some 5, last_run := none,
    last_result := none, status := active_status }

def c2_db : DB := { groups := [], tasks := [c2_task_a, c2_task_b] }

/-- Tick environment where the first task's store access raises and every
other task would run normally. -/
def c2_oracle_raise : Nat → TaskOracle := fun i =>
  if i = 0 then TaskOracle.raises
  else TaskOracle.runs (SandboxRes.success (("ok").data) none)

/-- Tick environment where every sandbox call reports an executor failure. -/
def c2_oracle_fail : Nat → TaskOracle := fun _ =>
  TaskOracle.runs (SandboxRes.error (("boom").data))

/-- A one-shot task used to witness the record-execution claim. -/
def c5_task : Task :=
  { id := ("t1").data, group_name := ("g").data, cron := ("once:+5m").data,
    prompt := ("p").data, next_run := some 10, last_run := none,
    last_result := none, status := active_status }

/-- Two concurrent `get_or_create_group("Foo Bar")` invocations, nothing
persisted yet. -/
def c8_init : RaceState :=
  { groups := [], callers := [CallerPhase.start, CallerPhase.start] }

def c8_row : Group :=
  { name := ("Foo Bar").data, folder := ("foo-bar").data, session_id := none }

/-! ### Helper lemmas -/

theorem dropWhile_eq_self_of_all (p : Char → Bool) (s : List Char)
    (h : ∀ c ∈ s, p c = false) : s.dropWhile p = s := by
  cases s with
  | nil => rfl
  | cons c t => simp [List.dropWhile_cons, h c (by simp)]

theorem pyStrip_eq_self (s : List Char) (h : ∀ c ∈ s, isPySpace c = false) :
    pyStrip s = s := by
  unfold pyStrip
  rw [dropWhile_eq_self_of_all _ _ h,
      dropWhile_eq_self_of_all _ _ (fun c hc => h c (List.mem_reverse.mp hc)),
      List.reverse_reverse]

/-! ### Claim C3 -/

/-- Claim C3: for every interval spec `Interval(m)` and instant `base`,
the next run is `base + m*60` seconds for both values of `after_run`; every
one-shot spec yields no next run once `after_run` is true, and with
`after_run` false a relative one-shot resolves to `base + m*60` while an
absolute one-shot resolves to its stored instant; `calc_next_run` is
exactly this resolution applied to the parsed expression. -/
theorem c3_next_run :
    (∀ (m base : Int) (after_run : Bool),
        next_from_spec (CronSpec.interval m) base after_run
          = some (base + m * 60)) ∧
    (∀ (m base : Int), next_from_spec (CronSpec.once_rel m) base true = none) ∧
    (∀ (t base : Int), next_from_spec (CronSpec.once_abs t) base true = none) ∧
    (∀ (m base : Int),
        next_from_spec (CronSpec.once_rel m) base false = some (base + m * 60)) ∧
    (∀ (t base : Int), next_from_spec (CronSpec.once_abs t) base false = some t) ∧
    (∀ (fromiso : List Char → Option Int) (cron : List Char) (base : Int)
        (after_run : Bool),
        calc_next_run fromiso cron base after_run
          = Option.bind (parse_cron fromiso cron)
              (fun spec => next_from_spec spec base after_run)) := by
  refine ⟨fun m base ar => rfl, fun m base => rfl, fun t base => rfl,
    fun m base => rfl, fun t base => rfl, ?_⟩
  intro fromiso cron base ar
  cases h : parse_cron fromiso cron <;> simp [calc_next_run, h]

/-! ### Claim C1 -/

/-- Claim C1 (amended): the due-task query returns exactly the tasks whose
status is active and whose `next_run` is non-null and at most `now` - as a
multiset - but in the storage engine's scan order: the query has no
`ORDER BY`, so no particular order (in particular not creation-time
ascending) is guaranteed. -/
theorem c1_due_query (table scan : List Task) (now : Int)
    (hperm : scan.Perm table) :
    (get_due_tasks scan now).Perm (table.filter (isDue now)) ∧
    (∀ t ∈ get_due_tasks scan now, isDue now t = true ∧ t ∈ table) ∧
    (∀ t ∈ table, isDue now t = true → t ∈ get_due_tasks scan now) := by
  unfold get_due_tasks
  refine ⟨hperm.filter (isDue now), ?_, ?_⟩
  · intro t ht
    have h := List.mem_filter.mp ht
    exact ⟨h.2, hperm.mem_iff.mp h.1⟩
  · intro t ht hd
    exact List.mem_filter.mpr ⟨hperm.mem_iff.mpr ht, hd⟩

/-- Claim C1 is false as stated: with the table in creation order
`[c1_task_a, c1_task_b]` and the engine scanning in `next_run` order (a
legitimate scan for a query with no `ORDER BY`, for instance via the
`idx_tasks_next_run` index), the due query returns `[c1_task_b, c1_task_a]`,
which is not creation-time ascending. -/
theorem c1_due_query_counterexample :
    ([c1_task_b, c1_task_a].Perm [c1_task_a, c1_task_b]) ∧
    get_due_tasks [c1_task_b, c1_task_a] 20
      ≠ [c1_task_a, c1_task_b].filter (isDue 20) := by
  exact ⟨List.Perm.swap c1_task_a c1_task_b [], by decide⟩

theorem c1_due_query_witness :
    (get_due_tasks [c1_task_b, c1_task_a] 20).Perm
        ([c1_task_a, c1_task_b].filter (isDue 20)) ∧
    (∀ t ∈ get_due_tasks [c1_task_b, c1_task_a] 20,
        isDue 20 t = true ∧ t ∈ [c1_task_a, c1_task_b]) ∧
    (∀ t ∈ [c1_task_a, c1_task_b],
        isDue 20 t = true → t ∈ get_due_tasks [c1_task_b, c1_task_a] 20) :=
  c1_due_query [c1_task_a, c1_task_b] [c1_task_b, c1_task_a] 20
    (List.Perm.swap c1_task_a c1_task_b [])

/-! ### Claim C9 -/

/-- Claim C9 (amended): `update_session` sets the session token of every
group row named `name` when one exists and leaves all other rows unchanged;
when no such group exists it mutates nothing, but no error is returned -
the function inspects no rowcount and the daemon's `new_session` handler
replies with an ok-status message either way. -/
theorem c9_update_session (groups : List Group) (name : List Char)
    (sid : Option (List Char)) :
    (∀ g ∈ groups, g.name = name →
        { g with session_id := sid } ∈ update_session groups name sid) ∧
    (∀ g ∈ groups, g.name ≠ name → g ∈ update_session groups name sid) ∧
    ((∀ g ∈ groups, g.name ≠ name) → update_session groups name sid = groups) ∧
    (handle_new_session groups name).1.1 = RespStatus.ok := by
  refine ⟨?_, ?_, ?_, rfl⟩
  · intro g hg he
    unfold update_session
    exact List.mem_map.mpr ⟨g, hg, by simp [he]⟩
  · intro g hg hne
    unfold update_session
    exact List.mem_map.mpr ⟨g, hg, by simp [hne]⟩
  · intro h
    unfold update_session
    have hid : ∀ g ∈ groups,
        (if g.name == name then { g with session_id := sid } else g) = id g := by
      intro g hg
      simp [h g hg]
    rw [List.map_congr_left hid, List.map_id]

/-- Claim C9 is false as stated: on a store with no group named `mygroup`,
the session update is a silent no-op - the daemon replies with an ok-status
message, not an error, and no state is mutated. -/
theorem c9_update_session_counterexample :
    handle_new_session [] (("mygroup").data)
        = ((RespStatus.ok, ("Session cleared for mygroup").data), []) ∧
    update_session [] (("mygroup").data) (some (("tok").data)) = [] :=
  ⟨rfl, rfl⟩

theorem c9_update_session_witness :
    ({ name := ("mygroup").data, folder := ("mygroup").data,
       session_id := some (("tok").data) } : Group)
      ∈ update_session
          [{ name := ("mygroup").data, folder := ("mygroup").data,
             session_id := none }]
          (("mygroup").data) (some (("tok").data)) ∧
    update_session
        [{ name := ("other").data, folder := ("other").data,
           session_id := none }]
        (("mygroup").data) (some (("tok").data))
      = [{ name := ("other").data, folder := ("other").data,
           session_id := none }] := by
  constructor
  · exact (c9_update_session
      [{ name := ("mygroup").data, folder := ("mygroup").data,
         session_id := none }]
      (("mygroup").data) (some (("tok").data))).1
      { name := ("mygroup").data, folder := ("mygroup").data,
        session_id := none } (by simp) rfl
  · exact (c9_update_session
      [{ name := ("other").data, folder := ("other").data,
         session_id := none }]
      (("mygroup").data) (some (("tok").data))).2.2.1 (by decide)

/-! ### Claim C5 -/

theorem apply_run_update_id (fromiso : List Char → Option Int)
    (task_id result cron : List Char) (now : Int) (t : Task) :
    (apply_run_update fromiso task_id result cron now t).id = t.id := by
  unfold apply_run_update
  split <;> rfl

/-- Claim C5: after `update_task_after_run(id, resultText, scheduleExpr)`
executed at instant `now`, the task with that id has `next_run` equal to
the after-run recomputation of the schedule, status `completed` exactly
when that recomputation is `none` and `active` otherwise, `last_run = now`
and `last_result` truncated to 500 characters; in particular a one-shot
schedule leaves the task `completed`. -/
theorem c5_record_execution (fromiso : List Char → Option Int)
    (tasks : List Task) (task_id result cron : List Char) (now : Int) :
    (∀ t' ∈ update_task_after_run fromiso tasks task_id result cron now,
        t'.id = task_id →
          t'.next_run = calc_next_run fromiso cron now true ∧
          t'.status = (if calc_next_run fromiso cron now true = none
                       then completed_status else active_status) ∧
          t'.last_run = some now ∧
          t'.last_result = some (result.take 500)) ∧
    ((∃ t ∈ tasks, t.id = task_id) →
        ∃ t' ∈ update_task_after_run fromiso tasks task_id result cron now,
          t'.id = task_id) ∧
    (∀ spec, parse_cron fromiso cron = some spec → is_one_shot spec = true →
        ∀ t' ∈ update_task_after_run fromiso tasks task_id result cron now,
          t'.id = task_id → t'.status = completed_status) := by
  have hmain : ∀ t' ∈ update_task_after_run fromiso tasks task_id result cron now,
      t'.id = task_id →
        t'.next_run = calc_next_run fromiso cron now true ∧
        t'.status = (if calc_next_run fromiso cron now true = none
                     then completed_status else active_status) ∧
        t'.last_run = some now ∧
        t'.last_result = some (result.take 500) := by
    intro t' ht' hid
    obtain ⟨t, ht, heq⟩ := List.mem_map.mp ht'
    subst heq
    unfold apply_run_update at hid ⊢
    by_cases h : t.id == task_id
    · rw [if_pos h]
      exact ⟨rfl, rfl, rfl, rfl⟩
    · rw [if_neg h] at hid
      exact absurd hid (by simpa using h)
  refine ⟨hmain, ?_, ?_⟩
  · rintro ⟨t, ht, hid⟩
    refine ⟨apply_run_update fromiso task_id result cron now t,
      List.mem_map_of_mem _ ht, ?_⟩
    rw [apply_run_update_id]
    exact hid
  · intro spec hp hone t' ht' hid
    have hnone : calc_next_run fromiso cron now true = none := by
      unfold calc_next_run
      rw [hp]
      cases spec with
      | interval m => simp [is_one_shot] at hone
      | once_rel m => rfl
      | once_abs t => rfl
    have h := (hmain t' ht' hid).2.1
    rw [hnone] at h
    simpa using h

theorem c5_record_execution_witness :
    (({ id := ("t1").data, group_name := ("g").data,
        cron := ("once:+5m").data, prompt := ("p").data, next_run := none,
        last_run := some 20, last_result := some (("r").data),
        status := completed_status } : Task).next_run
          = calc_next_run iso_none (("once:+5m").data) 20 true ∧
      ({ id := ("t1").data, group_name := ("g").data,
         cron := ("once:+5m").data, prompt := ("p").data, next_run := none,
         last_run := some 20, last_result := some (("r").data),
         status := completed_status } : Task).status
          = (if calc_next_run iso_none (("once:+5m").data) 20 true = none
             then completed_status else active_status) ∧
      ({ id := ("t1").data, group_name := ("g").data,
         cron := ("once:+5m").data, prompt := ("p").data, next_run := none,
         last_run := some 20, last_result := some (("r").data),
         status := completed_status } : Task).last_run = some 20 ∧
      ({ id := ("t1").data, group_name := ("g").data,
         cron := ("once:+5m").data, prompt := ("p").data, next_run := none,
         last_run := some 20, last_result := some (("r").data),
         status := completed_status } : Task).last_result
          = some ((("r").data).take 500)) ∧
    (∃ t' ∈ update_task_after_run iso_none [c5_task] (("t1").data)
        (("r").data) (("once:+5m").data) 20, t'.id = ("t1").data) ∧
    ({ id := ("t1").data, group_name := ("g").data,
       cron := ("once:+5m").data, prompt := ("p").data, next_run := none,
       last_run := some 20, last_result := some (("r").data),
       status := completed_status } : Task).status = completed_status := by
  refine ⟨?_, ?_, ?_⟩
  · exact (c5_record_execution iso_none [c5_task] (("t1").data) (("r").data)
      (("once:+5m").data) 20).1 _ (by decide) rfl
  · exact (c5_record_execution iso_none [c5_task] (("t1").data) (("r").data)
      (("once:+5m").data) 20).2.1 ⟨c5_task, by decide, rfl⟩
  · exact (c5_record_execution iso_none [c5_task] (("t1").data) (("r").data)
      (("once:+5m").data) 20).2.2 (CronSpec.once_rel 5) rfl rfl _ (by decide) rfl

/-! ### Claim C6 -/

/-- Claim C6: an expression that fails validation makes `create_task`
return the invalid-cron error with the store untouched; a valid expression
appends a fresh task with status `active` and
`next_run = calc_next_run(cron, now, after_run := false)`, and when the
generated id is fresh the new store holds exactly one task with that id. -/
theorem c6_create_task (fromiso : List Char → Option Int) (tasks : List Task)
    (group_name cron prompt task_id : List Char) (now : Int) :
    (parse_cron fromiso cron = none →
        create_task fromiso tasks group_name cron prompt task_id now
          = (CreateResult.err (invalid_cron_msg cron), tasks)) ∧
    (∀ spec, parse_cron fromiso cron = some spec →
        create_task fromiso tasks group_name cron prompt task_id now
          = (CreateResult.ok task_id (calc_next_run fromiso cron now false),
             tasks ++ [{ id := task_id, group_name := group_name,
                         cron := cron, prompt := prompt,
                         next_run := calc_next_run fromiso cron now false,
                         last_run := none, last_result := none,
                         status := active_status }])) ∧
    (∀ spec, parse_cron fromiso cron = some spec →
        task_id ∉ tasks.map Task.id →
        (((create_task fromiso tasks group_name cron prompt task_id now).2).filter
            (fun t => t.id == task_id)).length = 1) := by
  have hok : ∀ spec, parse_cron fromiso cron = some spec →
      create_task fromiso tasks group_name cron prompt task_id now
        = (CreateResult.ok task_id (calc_next_run fromiso cron now false),
           tasks ++ [{ id := task_id, group_name := group_name,
                       cron := cron, prompt := prompt,
                       next_run := calc_next_run fromiso cron now false,
                       last_run := none, last_result := none,
                       status := active_status }]) := by
    intro spec h
    simp [create_task, h]
  refine ⟨?_, hok, ?_⟩
  · intro h
    simp [create_task, h]
  · intro spec h hfresh
    rw [hok spec h]
    rw [List.filter_append]
    have hnil : tasks.filter (fun t => t.id == task_id) = [] := by
      rw [List.filter_eq_nil_iff]
      intro t ht
      simp only [beq_iff_eq]
      intro he
      exact hfresh (he ▸ List.mem_map_of_mem Task.id ht)
    rw [hnil]
    simp

theorem c6_create_task_witness :
    create_task iso_none [] (("g").data) (("bogus").data) (("p").data)
        (("t1").data) 0
      = (CreateResult.err (invalid_cron_msg (("bogus").data)), []) ∧
    create_task iso_none [] (("g").data) (("@hourly").data) (("p").data)
        (("t1").data) 0
      = (CreateResult.ok (("t1").data) (some 3600),
         [{ id := ("t1").data, group_name := ("g").data,
            cron := ("@hourly").data, prompt := ("p").data,
            next_run := some 3600, last_run := none, last_result := none,
            status := active_status }]) ∧
    (((create_task iso_none [] (("g").data) (("@hourly").data) (("p").data)
        (("t1").data) 0).2).filter (fun t => t.id == ("t1").data)).length
      = 1 := by
  refine ⟨?_, ?_, ?_⟩
  · exact (c6_create_task iso_none [] (("g").data) (("bogus").data)
      (("p").data) (("t1").data) 0).1 rfl
  · exact (c6_create_task iso_none [] (("g").data) (("@hourly").data)
      (("p").data) (("t1").data) 0).2.1 (CronSpec.interval 60) rfl
  · exact (c6_create_task iso_none [] (("g").data) (("@hourly").data)
      (("p").data) (("t1").data) 0).2.2 (CronSpec.interval 60) rfl (by decide)

/-! ### Claim C7 -/

/-- Claim C7 is false as stated: a `task_add` request with an empty prompt
and a valid cron is accepted by the daemon - it replies with the ok
response and persists a task whose prompt is empty. -/
theorem c7_empty_prompt_counterexample :
    handle_task_add iso_none [] (("default").data) (("@hourly").data) []
        (("abc12345").data) 0
      = (CreateResult.ok (("abc12345").data) (some 3600),
         [{ id := ("abc12345").data, group_name := ("default").data,
            cron := ("@hourly").data, prompt := [], next_run := some 3600,
            last_run := none, last_result := none,
            status := active_status }]) := by
  decide

/-- Claim C7 (amended): the empty-prompt validation for `task_add` lives in
the CLI client, which refuses to send a request whose joined prompt is
empty; the daemon's `task_add` branch performs no prompt validation and,
handed an empty prompt with a valid cron directly, persists a task with an
empty prompt. -/
theorem c7_prompt_validation (words : List (List Char))
    (fromiso : List Char → Option Int) (tasks : List Task)
    (group cron task_id : List Char) (now : Int) :
    (∀ p, cmd_task_add_request words = some p → p ≠ []) ∧
    (∀ spec, parse_cron fromiso cron = some spec →
        (handle_task_add fromiso tasks group cron [] task_id now).2
          = tasks ++ [{ id := task_id, group_name := group, cron := cron,
                        prompt := [],
                        next_run := calc_next_run fromiso cron now false,
                        last_run := none, last_result := none,
                        status := active_status }]) := by
  constructor
  · intro p hp
    unfold cmd_task_add_request at hp
    by_cases h1 : words = []
    · simp [h1] at hp
    · by_cases h2 : join_space words = []
      · simp [h1, h2] at hp
      · simp only [h1, if_false, h2] at hp
        simp at hp
        exact hp ▸ h2
  · intro spec h
    simp [handle_task_add, create_task, h]

theorem c7_prompt_validation_witness :
    (("hi").data ≠ []) ∧
    (handle_task_add iso_none [] (("default").data) (("@hourly").data) []
        (("t9").data) 0).2
      = [] ++ [{ id := ("t9").data, group_name := ("default").data,
                 cron := ("@hourly").data, prompt := [],
                 next_run := calc_next_run iso_none (("@hourly").data) 0 false,
                 last_run := none, last_result := none,
                 status := active_status }] := by
  constructor
  · exact (c7_prompt_validation [("hi").data] iso_none []
      (("default").data) (("@hourly").data) (("t9").data) 0).1
      (("hi").data) rfl
  · exact (c7_prompt_validation [("hi").data] iso_none []
      (("default").data) (("@hourly").data) (("t9").data) 0).2
      (CronSpec.interval 60) rfl

/-! ### Decimal-literal round trip through Python `int` -/

theorem isDigitCh_natDigitChar (d : Nat) (h : d < 10) :
    isDigitCh (natDigitChar d) = true := by
  interval_cases d <;> rfl

theorem digitVal_natDigitChar (d : Nat) (h : d < 10) :
    digitVal (natDigitChar d) = d := by
  interval_cases d <;> rfl

theorem beq_underscore_eq_false_of_digit (c : Char) (h : isDigitCh c = true) :
    (c == '_') = false := by
  cases hb : c == '_' with
  | false => rfl
  | true =>
    have he : c = '_' := eq_of_beq hb
    subst he
    exact absurd h (by decide)

theorem not_space_of_digit (c : Char) (h : isDigitCh c = true) :
    isPySpace c = false := by
  unfold isDigitCh at h
  unfold isPySpace
  simp only [Bool.and_eq_true, decide_eq_true_eq] at h
  simp only [Bool.or_eq_false_iff, beq_eq_false_iff_ne, ne_eq]
  omega

theorem pyIntDigitsGo_cons_digit (c : Char) (rest : List Char) (acc : Nat)
    (hc : isDigitCh c = true) :
    pyIntDigitsGo (c :: rest) acc
      = pyIntDigitsGo rest (acc * 10 + digitVal c) := by
  cases rest with
  | nil =>
    rw [pyIntDigitsGo.eq_2]
    simp [beq_underscore_eq_false_of_digit c hc, hc]
  | cons c2 rest2 =>
    rw [pyIntDigitsGo.eq_3]
    simp [beq_underscore_eq_false_of_digit c hc, hc]

theorem pyIntDigitsGo_append : ∀ (xs : List Char),
    (∀ c ∈ xs, isDigitCh c = true) → ∀ (ys : List Char) (acc : Nat),
    pyIntDigitsGo (xs ++ ys) acc
      = pyIntDigitsGo ys (xs.foldl (fun a c => a * 10 + digitVal c) acc) := by
  intro xs
  induction xs with
  | nil => intro _ ys acc; rfl
  | cons c rest ih =>
    intro h ys acc
    have hc := h c (List.mem_cons_self c rest)
    have hrest : ∀ x ∈ rest, isDigitCh x = true :=
      fun x hx => h x (List.mem_cons_of_mem c hx)
    rw [List.cons_append, pyIntDigitsGo_cons_digit c (rest ++ ys) acc hc,
      ih hrest ys (acc * 10 + digitVal c), List.foldl_cons]

theorem natDigits_all_digits : ∀ (n : Nat), ∀ c ∈ natDigits n,
    isDigitCh c = true := by
  intro n
  induction n using Nat.strong_induction_on with
  | _ n ih =>
    intro c hc
    rw [natDigits] at hc
    by_cases h : n < 10
    · simp [h] at hc
      subst hc
      exact isDigitCh_natDigitChar n h
    · simp [h] at hc
      rcases hc with hc | hc
      · exact ih (n / 10) (Nat.div_lt_self (by omega) (by omega)) c hc
      · subst hc
        exact isDigitCh_natDigitChar (n % 10) (Nat.mod_lt n (by omega))

theorem natDigits_ne_nil (n : Nat) : natDigits n ≠ [] := by
  rw [natDigits]
  by_cases h : n < 10 <;> simp [h]

theorem foldl_natDigits : ∀ (n : Nat) (acc : Nat),
    (natDigits n).foldl (fun a c => a * 10 + digitVal c) acc
      = acc * pw10 n + n := by
  intro n
  induction n using Nat.strong_induction_on with
  | _ n ih =>
    intro acc
    rw [natDigits, pw10]
    by_cases h : n < 10
    · simp [h, List.foldl, digitVal_natDigitChar n h]
    · simp only [h, dite_false]
      rw [List.foldl_append,
        ih (n / 10) (Nat.div_lt_self (by omega) (by omega)) acc]
      simp [List.foldl, digitVal_natDigitChar (n % 10) (Nat.mod_lt n (by omega))]
      have hdm := Nat.div_add_mod n 10
      ring_nf
      omega

theorem pyIntDigitsGo_natDigits (n : Nat) :
    pyIntDigitsGo (natDigits n) 0 = some n := by
  have h := pyIntDigitsGo_append (natDigits n) (natDigits_all_digits n) [] 0
  rw [List.append_nil] at h
  rw [h, foldl_natDigits]
  simp [pyIntDigitsGo]

theorem pyIntDigits_natDigits (n : Nat) :
    pyIntDigits (natDigits n) = some n := by
  cases hd : natDigits n with
  | nil => exact absurd hd (natDigits_ne_nil n)
  | cons c rest =>
    have hc : isDigitCh c = true := by
      apply natDigits_all_digits n
      rw [hd]
      exact List.mem_cons_self c rest
    have hgo : pyIntDigitsGo (c :: rest) 0 = some n := by
      rw [← hd]
      exact pyIntDigitsGo_natDigits n
    rw [pyIntDigitsGo_cons_digit c rest 0 hc] at hgo
    simp only [Nat.zero_mul, Nat.zero_add] at hgo
    rw [pyIntDigits.eq_2]
    rw [hc]
    simpa using hgo

theorem pyIntSigned_digits (ds : List Char) (n : Nat)
    (hall : ∀ c ∈ ds, isDigitCh c = true) (hds : pyIntDigits ds = some n) :
    pyIntSigned ds = some (n : Int) := by
  rw [pyIntSigned.eq_3]
  · rw [hds]
    rfl
  · intro rest heq
    have := hall '+' (by rw [heq]; exact List.mem_cons_self _ _)
    exact absurd this (by decide)
  · intro rest heq
    have := hall '-' (by rw [heq]; exact List.mem_cons_self _ _)
    exact absurd this (by decide)

theorem pyInt_natDigits (n : Nat) : pyInt (natDigits n) = some (n : Int) := by
  unfold pyInt
  rw [pyStrip_eq_self _
    (fun c hc => not_space_of_digit c (natDigits_all_digits n c hc))]
  exact pyIntSigned_digits _ n (natDigits_all_digits n) (pyIntDigits_natDigits n)

theorem intLit_all_nonspace (N : Int) : ∀ c ∈ intLit N, isPySpace c = false := by
  intro c hc
  unfold intLit at hc
  by_cases h : N < 0
  · rw [if_pos h] at hc
    rcases List.mem_cons.mp hc with hc | hc
    · subst hc; rfl
    · exact not_space_of_digit c (natDigits_all_digits _ c hc)
  · rw [if_neg h] at hc
    exact not_space_of_digit c (natDigits_all_digits _ c hc)

theorem pyInt_intLit (N : Int) : pyInt (intLit N) = some N := by
  unfold intLit
  by_cases h : N < 0
  · rw [if_pos h]
    unfold pyInt
    rw [pyStrip_eq_self _ (fun c hc => by
      rcases List.mem_cons.mp hc with hc | hc
      · subst hc; rfl
      · exact not_space_of_digit c (natDigits_all_digits _ c hc))]
    show (pyIntDigits (natDigits N.natAbs)).map (fun n => -(n : Int)) = some N
    rw [pyIntDigits_natDigits]
    exact congrArg some (by omega : -(N.natAbs : Int) = N)
  · rw [if_neg h]
    rw [pyInt_natDigits]
    congr 1
    omega

/-! ### Shape lemmas for `parse_cron` -/

theorem pyStartswith_append (p s : List Char) :
    pyStartswith p (p ++ s) = true := by
  induction p with
  | nil => rfl
  | cons c ps ih => simp [pyStartswith, ih]

theorem pyStartswith_cons_ne (p c : Char) (ps cs : List Char)
    (h : (p == c) = false) : pyStartswith (p :: ps) (c :: cs) = false := by
  simp [pyStartswith, h]

theorem pyStartswith_append_head_ne (a b : Char) (ps x z : List Char)
    (h : (a == b) = false) : pyStartswith (a :: ps) ((b :: x) ++ z) = false := by
  rw [List.cons_append]
  exact pyStartswith_cons_ne a b ps _ h

theorem append_ne_of_head (a b : Char) (x y z : List Char)
    (hab : a ≠ b) : (a :: x) ++ z ≠ b :: y := by
  simp [List.cons_append, hab]

theorem pyLower_append_fixed (A body : List Char) (hA : pyLower A = A) :
    pyLower (A ++ body) = A ++ pyLower body := by
  unfold pyLower at hA ⊢
  rw [List.map_append, hA]

theorem bool_cond_false {b : Bool} (h : b = false) : ¬(b = true) := by
  simp [h]

/-- `parse_cron` on `"once:" ++ body` (no surrounding whitespace in `body`)
reaches the once branch: the `+Nm` form when `body` starts with `+` and
ends with `m`, otherwise `fromisoformat`. -/
theorem parse_cron_once_shape (fromiso : List Char → Option Int)
    (body : List Char) (hns : ∀ c ∈ body, isPySpace c = false) :
    parse_cron fromiso (("once:").data ++ body)
      = (if pyStartswith (("+").data) body && pyEndswith (("m").data) body
         then match pyInt ((body.drop 1).dropLast) with
              | some m => some (CronSpec.once_rel m)
              | none => none
         else match fromiso body with
              | some t => some (CronSpec.once_abs t)
              | none => none) := by
  have hall : ∀ c ∈ ("once:").data ++ body, isPySpace c = false := by
    intro c hc
    rcases List.mem_append.mp hc with hc | hc
    · exact (by decide : ∀ c ∈ ("once:").data, isPySpace c = false) c hc
    · exact hns c hc
  have hA : ("once:").data = 'o' :: ['n', 'c', 'e', ':'] := by decide
  have hlow : pyLower (("once:").data ++ body)
      = ('o' :: ['n', 'c', 'e', ':']) ++ pyLower body := by
    rw [pyLower_append_fixed (("once:").data) body (by decide), hA]
  have hd5 : ((("once:").data ++ body).drop 5) = body := by
    rw [hA]
    rfl
  have ne1 : (('o' :: ['n', 'c', 'e', ':']) ++ pyLower body)
      ≠ ("@hourly").data := by
    rw [show ("@hourly").data = '@' :: ['h', 'o', 'u', 'r', 'l', 'y'] from
      by decide]
    exact append_ne_of_head _ _ _ _ _ (by decide)
  have ne2 : (('o' :: ['n', 'c', 'e', ':']) ++ pyLower body)
      ≠ ("@daily").data := by
    rw [show ("@daily").data = '@' :: ['d', 'a', 'i', 'l', 'y'] from by decide]
    exact append_ne_of_head _ _ _ _ _ (by decide)
  have ne3 : (('o' :: ['n', 'c', 'e', ':']) ++ pyLower body)
      ≠ ("@weekly").data := by
    rw [show ("@weekly").data = '@' :: ['w', 'e', 'e', 'k', 'l', 'y'] from
      by decide]
    exact append_ne_of_head _ _ _ _ _ (by decide)
  have h4 : pyStartswith (("*/").data)
      (('o' :: ['n', 'c', 'e', ':']) ++ pyLower body) = false := by
    rw [show ("*/").data = '*' :: ['/'] from by decide]
    exact pyStartswith_append_head_ne '*' 'o' _ _ _ (by decide)
  have h5 : pyStartswith (("once:").data)
      (('o' :: ['n', 'c', 'e', ':']) ++ pyLower body) = true := by
    rw [hA]
    exact pyStartswith_append _ _
  show parse_cron_stripped fromiso (pyStrip (("once:").data ++ body)) = _
  rw [pyStrip_eq_self _ hall, parse_cron_stripped.eq_def, hlow]
  rw [if_neg ne1, if_neg ne2, if_neg ne3, if_neg (bool_cond_false h4),
    if_pos h5]
  rw [hd5, pyStrip_eq_self body hns]

/-- `parse_cron` on `"*/" ++ body` (no surrounding whitespace in `body`)
reaches the interval branch: Python `int` of `body`, accepted only when
positive. -/
theorem parse_cron_star_shape (fromiso : List Char → Option Int)
    (body : List Char) (hns : ∀ c ∈ body, isPySpace c = false) :
    parse_cron fromiso (("*/").data ++ body)
      = (match pyInt body with
         | some m => if 0 < m then some (CronSpec.interval m) else none
         | none => none) := by
  have hall : ∀ c ∈ ("*/").data ++ body, isPySpace c = false := by
    intro c hc
    rcases List.mem_append.mp hc with hc | hc
    · exact (by decide : ∀ c ∈ ("*/").data, isPySpace c = false) c hc
    · exact hns c hc
  have hA : ("*/").data = '*' :: ['/'] := by decide
  have hlow : pyLower (("*/").data ++ body)
      = ('*' :: ['/']) ++ pyLower body := by
    rw [pyLower_append_fixed (("*/").data) body (by decide), hA]
  have hd2 : ((("*/").data ++ body).drop 2) = body := by
    rw [hA]
    rfl
  have ne1 : (('*' :: ['/']) ++ pyLower body) ≠ ("@hourly").data := by
    rw [show ("@hourly").data = '@' :: ['h', 'o', 'u', 'r', 'l', 'y'] from
      by decide]
    exact append_ne_of_head _ _ _ _ _ (by decide)
  have ne2 : (('*' :: ['/']) ++ pyLower body) ≠ ("@daily").data := by
    rw [show ("@daily").data = '@' :: ['d', 'a', 'i', 'l', 'y'] from by decide]
    exact append_ne_of_head _ _ _ _ _ (by decide)
  have ne3 : (('*' :: ['/']) ++ pyLower body) ≠ ("@weekly").data := by
    rw [show ("@weekly").data = '@' :: ['w', 'e', 'e', 'k', 'l', 'y'] from
      by decide]
    exact append_ne_of_head _ _ _ _ _ (by decide)
  have h4 : pyStartswith (("*/").data)
      (('*' :: ['/']) ++ pyLower body) = true := by
    rw [hA]
    exact pyStartswith_append _ _
  show parse_cron_stripped fromiso (pyStrip (("*/").data ++ body)) = _
  rw [pyStrip_eq_self _ hall, parse_cron_stripped.eq_def, hlow]
  rw [if_neg ne1, if_neg ne2, if_neg ne3, if_pos h4]
  rw [hd2]

/-- `parse_cron` on any expression matching none of the grammar's five
shapes returns `none`. -/
theorem parse_cron_no_match (fromiso : List Char → Option Int)
    (cron : List Char)
    (h1 : pyLower (pyStrip cron) ≠ ("@hourly").data)
    (h2 : pyLower (pyStrip cron) ≠ ("@daily").data)
    (h3 : pyLower (pyStrip cron) ≠ ("@weekly").data)
    (h4 : pyStartswith (("*/").data) (pyLower (pyStrip cron)) = false)
    (h5 : pyStartswith (("once:").data) (pyLower (pyStrip cron)) = false) :
    parse_cron fromiso cron = none := by
  show parse_cron_stripped fromiso (pyStrip cron) = none
  rw [parse_cron_stripped.eq_def]
  rw [if_neg h1, if_neg h2, if_neg h3, if_neg (bool_cond_false h4),
    if_neg (bool_cond_false h5)]

/-- `parse_cron` accepts `once:+<decimal literal of N>m` for every integer
`N` (any sign) and yields the relative one-shot of `N` minutes. -/
theorem parse_cron_once_rel_lit (fromiso : List Char → Option Int) (N : Int) :
    parse_cron fromiso (("once:+").data ++ intLit N ++ ("m").data)
      = some (CronSpec.once_rel N) := by
  have hbody : ∀ c ∈ ('+' :: (intLit N ++ ('m' :: [])) : List Char),
      isPySpace c = false := by
    intro c hc
    rcases List.mem_cons.mp hc with hc | hc
    · subst hc; rfl
    · rcases List.mem_append.mp hc with hc | hc
      · exact intLit_all_nonspace N c hc
      · rcases List.mem_cons.mp hc with hc | hc
        · subst hc; rfl
        · exact absurd hc (List.not_mem_nil c)
  have harr : ("once:+").data ++ intLit N ++ ("m").data
      = ("once:").data ++ ('+' :: (intLit N ++ ('m' :: []))) := by
    rw [List.append_assoc,
      show ("once:+").data = ("once:").data ++ ['+'] from by decide,
      show ("m").data = ['m'] from by decide, List.append_assoc]
    rfl
  rw [harr, parse_cron_once_shape fromiso _ hbody]
  have hstart : pyStartswith (("+").data)
      ('+' :: (intLit N ++ ('m' :: []))) = true := by
    rw [show ("+").data = ['+'] from by decide]
    simp [pyStartswith]
  have hend : pyEndswith (("m").data)
      ('+' :: (intLit N ++ ('m' :: []))) = true := by
    unfold pyEndswith
    rw [show ("m").data = ['m'] from by decide]
    simp [List.reverse_cons, List.reverse_append, pyStartswith]
  rw [if_pos (by simp [hstart, hend])]
  rw [show (('+' :: (intLit N ++ ('m' :: []))).drop 1)
      = intLit N ++ ('m' :: []) from rfl]
  rw [show ((intLit N ++ ('m' :: [])).dropLast) = intLit N from by simp]
  rw [pyInt_intLit]

/-! ### Claim C10 -/

/-- Claim C10: `parse_cron` accepts `once:+Nm` for every integer `N`,
including zero and negative values, yielding a relative one-shot of `N`
minutes that `calc_next_run` resolves to the evaluation instant plus
`N*60` seconds - an instant at or before `base` when `N ≤ 0`, so such a
task is immediately due - while the `*/N` interval form rejects `N ≤ 0`. -/
theorem c10_once_negative (fromiso : List Char → Option Int) (N base : Int) :
    parse_cron fromiso (("once:+").data ++ intLit N ++ ("m").data)
      = some (CronSpec.once_rel N) ∧
    calc_next_run fromiso (("once:+").data ++ intLit N ++ ("m").data) base false
      = some (base + N * 60) ∧
    (N ≤ 0 → ∀ t : Task, t.status = active_status →
        t.next_run = some (base + N * 60) → isDue base t = true) ∧
    (N ≤ 0 → parse_cron fromiso (("*/").data ++ intLit N) = none) := by
  refine ⟨parse_cron_once_rel_lit fromiso N, ?_, ?_, ?_⟩
  · unfold calc_next_run
    rw [parse_cron_once_rel_lit fromiso N]
    rfl
  · intro hN t hstat hnr
    unfold isDue
    rw [hnr, hstat]
    simp only [beq_self_eq_true, Bool.true_and, decide_eq_true_eq]
    omega
  · intro hN
    rw [parse_cron_star_shape fromiso (intLit N) (intLit_all_nonspace N)]
    rw [pyInt_intLit]
    show (if 0 < N then some (CronSpec.interval N) else none) = none
    rw [if_neg (by omega)]

theorem c10_once_negative_witness :
    parse_cron iso_none (("once:+").data ++ intLit (-5) ++ ("m").data)
      = some (CronSpec.once_rel (-5)) ∧
    calc_next_run iso_none (("once:+").data ++ intLit (-5) ++ ("m").data)
        100 false
      = some (100 + (-5) * 60) ∧
    isDue 100
      ({ id := ("t1").data, group_name := ("g").data,
         cron := ("once:+-5m").data, prompt := ("p").data,
         next_run := some (100 + (-5) * 60), last_run := none,
         last_result := none, status := active_status } : Task) = true ∧
    parse_cron iso_none (("*/").data ++ intLit (-5)) = none := by
  have h := c10_once_negative iso_none (-5) 100
  exact ⟨h.1, h.2.1, h.2.2.1 (by norm_num) _ rfl rfl, h.2.2.2 (by norm_num)⟩

/-! ### Claim C4 -/

/-- Claim C4: the grammar of `parse_cron`.  `@hourly`/`@daily`/`@weekly`
map to the fixed intervals; `*/N` maps to `Interval(N)` exactly when `N`
parses as a positive integer (nonpositive or non-numeric is an error);
`once:+Nm` maps to a relative one-shot of `N` minutes; `once:<datetime>`
maps to an absolute one-shot when the datetime parses and is an error
otherwise; every string matching none of these shapes is an error, and the
resulting error message names the offending expression. -/
theorem c4_parse_grammar (fromiso : List Char → Option Int) :
    parse_cron fromiso (("@hourly").data) = some (CronSpec.interval 60) ∧
    parse_cron fromiso (("@daily").data) = some (CronSpec.interval 1440) ∧
    parse_cron fromiso (("@weekly").data) = some (CronSpec.interval 10080) ∧
    (∀ n : Nat, 0 < n →
        parse_cron fromiso (("*/").data ++ natDigits n)
          = some (CronSpec.interval (n : Int))) ∧
    (∀ s : List Char, (∀ c ∈ s, isPySpace c = false) →
        ∀ m : Int, pyInt s = some m → m ≤ 0 →
          parse_cron fromiso (("*/").data ++ s) = none) ∧
    (∀ s : List Char, (∀ c ∈ s, isPySpace c = false) →
        pyInt s = none → parse_cron fromiso (("*/").data ++ s) = none) ∧
    (∀ N : Int,
        parse_cron fromiso (("once:+").data ++ intLit N ++ ("m").data)
          = some (CronSpec.once_rel N)) ∧
    (∀ body : List Char, (∀ c ∈ body, isPySpace c = false) →
        (pyStartswith (("+").data) body
          && pyEndswith (("m").data) body) = false →
        ∀ t : Int, fromiso body = some t →
          parse_cron fromiso (("once:").data ++ body)
            = some (CronSpec.once_abs t)) ∧
    (∀ body : List Char, (∀ c ∈ body, isPySpace c = false) →
        (pyStartswith (("+").data) body
          && pyEndswith (("m").data) body) = false →
        fromiso body = none →
          parse_cron fromiso (("once:").data ++ body) = none) ∧
    (parse_cron fromiso (("*/0").data) = none ∧
     parse_cron fromiso (("*/abc").data) = none ∧
     parse_cron fromiso (("bogus").data) = none) ∧
    (∀ cron : List Char,
        pyLower (pyStrip cron) ≠ ("@hourly").data →
        pyLower (pyStrip cron) ≠ ("@daily").data →
        pyLower (pyStrip cron) ≠ ("@weekly").data →
        pyStartswith (("*/").data) (pyLower (pyStrip cron)) = false →
        pyStartswith (("once:").data) (pyLower (pyStrip cron)) = false →
        parse_cron fromiso cron = none) ∧
    (∀ (tasks : List Task) (g cron p tid : List Char) (now : Int),
        parse_cron fromiso cron = none →
        (create_task fromiso tasks g cron p tid now).1
          = CreateResult.err ((("Invalid cron: ").data ++ cron)
              ++ (". Use @hourly, @daily, @weekly, */N, once:+Nm, or once:DATETIME").data)) := by
  refine ⟨rfl, rfl, rfl, ?_, ?_, ?_, parse_cron_once_rel_lit fromiso,
    ?_, ?_, ⟨rfl, rfl, rfl⟩, parse_cron_no_match fromiso, ?_⟩
  · intro n hn
    rw [parse_cron_star_shape fromiso (natDigits n)
      (fun c hc => not_space_of_digit c (natDigits_all_digits n c hc))]
    rw [pyInt_natDigits]
    show (if 0 < (n : Int) then some (CronSpec.interval (n : Int)) else none)
      = some (CronSpec.interval (n : Int))
    rw [if_pos (by exact_mod_cast hn)]
  · intro s hs m hm hm0
    rw [parse_cron_star_shape fromiso s hs, hm]
    show (if 0 < m then some (CronSpec.interval m) else none) = none
    rw [if_neg (by omega)]
  · intro s hs hm
    rw [parse_cron_star_shape fromiso s hs, hm]
  · intro body hb hform t ht
    rw [parse_cron_once_shape fromiso body hb,
      if_neg (bool_cond_false hform), ht]
  · intro body hb hform ht
    rw [parse_cron_once_shape fromiso body hb,
      if_neg (bool_cond_false hform), ht]
  · intro tasks g cron p tid now h
    simp [create_task, h, invalid_cron_msg, List.append_assoc]

theorem c4_parse_grammar_witness :
    parse_cron iso_none (("*/").data ++ natDigits 15)
      = some (CronSpec.interval 15) ∧
    parse_cron iso_none (("*/").data ++ ("0").data) = none ∧
    parse_cron iso_none (("*/").data ++ ("abc").data) = none ∧
    parse_cron iso_zero (("once:").data ++ ("2024-01-01").data)
      = some (CronSpec.once_abs 0) ∧
    parse_cron iso_none (("once:").data ++ ("2024-01-01").data) = none ∧
    parse_cron iso_none (("anything else").data) = none ∧
    (create_task iso_none [] (("g").data) (("bogus").data) (("p").data)
        (("t2").data) 0).1
      = CreateResult.err ((("Invalid cron: ").data ++ ("bogus").data)
          ++ (". Use @hourly, @daily, @weekly, */N, once:+Nm, or once:DATETIME").data) := by
  refine ⟨?_, ?_, ?_, ?_, ?_, ?_, ?_⟩
  · exact (c4_parse_grammar iso_none).2.2.2.1 15 (by norm_num)
  · exact (c4_parse_grammar iso_none).2.2.2.2.1 (("0").data) (by decide) 0
      (by decide) (by norm_num)
  · exact (c4_parse_grammar iso_none).2.2.2.2.2.1 (("abc").data) (by decide)
      (by decide)
  · exact (c4_parse_grammar iso_zero).2.2.2.2.2.2.2.1 (("2024-01-01").data)
      (by decide) (by decide) 0 rfl
  · exact (c4_parse_grammar iso_none).2.2.2.2.2.2.2.2.1 (("2024-01-01").data)
      (by decide) (by decide) rfl
  · exact (c4_parse_grammar iso_none).2.2.2.2.2.2.2.2.2.2.1
      (("anything else").data) (by decide) (by decide) (by decide) (by decide)
      (by decide)
  · exact (c4_parse_grammar iso_none).2.2.2.2.2.2.2.2.2.2.2 [] (("g").data)
      (("bogus").data) (("p").data) (("t2").data) 0 rfl

/-! ### Claim C2 -/

theorem find?_map_custom (f : Task → Task) (l : List Task) (p : Task → Bool)
    (hp : ∀ t, p (f t) = p t) :
    (l.map f).find? p = (l.find? p).map f := by
  induction l with
  | nil => rfl
  | cons t ts ih =>
    simp only [List.map_cons, List.find?_cons, hp t]
    cases h : p t with
    | false => exact ih
    | true => rfl

theorem get_by_id_update (fromiso : List Char → Option Int)
    (tasks : List Task) (tid r c : List Char) (now : Int) (x : List Char) :
    get_by_id (update_task_after_run fromiso tasks tid r c now) x
      = (get_by_id tasks x).map (apply_run_update fromiso tid r c now) := by
  unfold get_by_id update_task_after_run
  exact find?_map_custom _ tasks _
    (fun t => by rw [apply_run_update_id])

theorem get_by_id_update_other (fromiso : List Char → Option Int)
    (tasks : List Task) (tid r c : List Char) (now : Int) (x : List Char)
    (hne : x ≠ tid) :
    get_by_id (update_task_after_run fromiso tasks tid r c now) x
      = get_by_id tasks x := by
  rw [get_by_id_update]
  cases hfind : get_by_id tasks x with
  | none => rfl
  | some u =>
    unfold get_by_id at hfind
    have hu : u.id = x := eq_of_beq (by simpa using List.find?_some hfind)
    have hfix : apply_run_update fromiso tid r c now u = u := by
      unfold apply_run_update
      rw [if_neg (by simp [hu, hne])]
    rw [Option.map_some', hfix]

theorem get_by_id_of_mem : ∀ (tasks : List Task) (t : Task),
    (tasks.map Task.id).Nodup → t ∈ tasks → get_by_id tasks t.id = some t := by
  intro tasks
  induction tasks with
  | nil => intro t _ ht; cases ht
  | cons a ts ih =>
    intro t hnd ht
    rw [List.map_cons, List.nodup_cons] at hnd
    unfold get_by_id
    simp only [List.find?_cons]
    rcases List.mem_cons.mp ht with rfl | hmem
    · simp
    · have hne : (a.id == t.id) = false := by
        cases hb : a.id == t.id with
        | false => rfl
        | true =>
          exact absurd (eq_of_beq hb ▸ List.mem_map_of_mem Task.id hmem) hnd.1
      rw [hne]
      exact ih t hnd.2 hmem

theorem tick_go_get_other (fromiso : List Char → Option Int) :
    ∀ (due : List Task) (db : DB) (oracle : Nat → TaskOracle) (i : Nat)
      (now : Int) (x : List Char),
    (∀ t ∈ due, t.id ≠ x) →
    get_by_id (tick_go fromiso db due oracle i now).tasks x
      = get_by_id db.tasks x := by
  intro due
  induction due with
  | nil => intro db oracle i now x _; rfl
  | cons t rest ih =>
    intro db oracle i now x h
    rw [tick_go.eq_2]
    cases ho : oracle i with
    | raises => rfl
    | runs res =>
      show get_by_id (tick_go fromiso (run_one_task fromiso db t res now)
        rest oracle (i + 1) now).tasks x = get_by_id db.tasks x
      rw [ih (run_one_task fromiso db t res now) oracle (i + 1) now x
        (fun u hu => h u (List.mem_cons_of_mem t hu))]
      show get_by_id (update_task_after_run fromiso db.tasks t.id
        (result_text res) t.cron now) x = get_by_id db.tasks x
      exact get_by_id_update_other fromiso db.tasks t.id _ _ now x
        (fun he => h t (List.mem_cons_self t rest) he.symm)

theorem tick_go_runs_spec (fromiso : List Char → Option Int) :
    ∀ (due : List Task) (db : DB) (oracle : Nat → TaskOracle)
      (resFn : Nat → SandboxRes) (i : Nat) (now : Int),
    (∀ k, oracle k = TaskOracle.runs (resFn k)) →
    (due.map Task.id).Nodup →
    (∀ t ∈ due, get_by_id db.tasks t.id = some t) →
    ∀ (j : Nat) (hj : j < due.length),
      get_by_id (tick_go fromiso db due oracle i now).tasks
          (due.get ⟨j, hj⟩).id
        = some (apply_run_update fromiso (due.get ⟨j, hj⟩).id
            (result_text (resFn (i + j))) (due.get ⟨j, hj⟩).cron now
            (due.get ⟨j, hj⟩)) := by
  intro due
  induction due with
  | nil => intro db oracle resFn i now _ _ _ j hj; exact absurd hj (by simp)
  | cons t rest ih =>
    intro db oracle resFn i now hor hnd hsnap j hj
    rw [List.map_cons, List.nodup_cons] at hnd
    rw [tick_go.eq_2, hor i]
    cases j with
    | zero =>
      show get_by_id (tick_go fromiso (run_one_task fromiso db t (resFn i) now)
          rest oracle (i + 1) now).tasks t.id
        = some (apply_run_update fromiso t.id (result_text (resFn (i + 0)))
            t.cron now t)
      rw [tick_go_get_other fromiso rest _ oracle (i + 1) now t.id
        (fun u hu heq => hnd.1 (heq ▸ List.mem_map_of_mem Task.id hu))]
      show get_by_id (update_task_after_run fromiso db.tasks t.id
          (result_text (resFn i)) t.cron now) t.id = _
      rw [get_by_id_update, hsnap t (List.mem_cons_self t rest)]
      rfl
    | succ j' =>
      have hj' : j' < rest.length := by simpa using hj
      rw [List.get_cons_succ]
      have hrec := ih (run_one_task fromiso db t (resFn i) now) oracle resFn
        (i + 1) now hor hnd.2
        (fun u hu => by
          show get_by_id (update_task_after_run fromiso db.tasks t.id
            (result_text (resFn i)) t.cron now) u.id = some u
          rw [get_by_id_update_other fromiso db.tasks t.id _ _ now u.id
            (fun he => hnd.1 (he ▸ List.mem_map_of_mem Task.id hu))]
          exact hsnap u (List.mem_cons_of_mem t hu))
        j' hj'
      rw [show i + (j' + 1) = (i + 1) + j' from by omega]
      exact hrec

/-- One scheduler tick in which every store operation succeeds: each due
task's row ends up updated with that task's sandbox outcome. -/
theorem scheduler_tick_runs_spec (fromiso : List Char → Option Int)
    (db : DB) (oracle : Nat → TaskOracle) (resFn : Nat → SandboxRes)
    (now : Int) (hor : ∀ k, oracle k = TaskOracle.runs (resFn k))
    (hnd : (db.tasks.map Task.id).Nodup) :
    ∀ (j : Nat) (hj : j < (get_due_tasks db.tasks now).length),
      get_by_id (scheduler_tick fromiso db oracle now).tasks
          ((get_due_tasks db.tasks now).get ⟨j, hj⟩).id
        = some (apply_run_update fromiso
            ((get_due_tasks db.tasks now).get ⟨j, hj⟩).id
            (result_text (resFn j))
            ((get_due_tasks db.tasks now).get ⟨j, hj⟩).cron now
            ((get_due_tasks db.tasks now).get ⟨j, hj⟩)) := by
  intro j hj
  have hdnd : ((get_due_tasks db.tasks now).map Task.id).Nodup :=
    List.Nodup.sublist
      (List.Sublist.map Task.id (List.filter_sublist db.tasks)) hnd
  have hsnap : ∀ t ∈ get_due_tasks db.tasks now,
      get_by_id db.tasks t.id = some t := by
    intro t ht
    exact get_by_id_of_mem db.tasks t hnd (List.mem_of_mem_filter ht)
  have h := tick_go_runs_spec fromiso (get_due_tasks db.tasks now) db oracle
    resFn 0 now hor hdnd hsnap j hj
  rw [Nat.zero_add] at h
  exact h

/-- Claim C2 (amended): within one tick, an executor failure is captured as
the failing task's `last_result` (truncated to 500 characters) and does not
prevent the remaining due tasks of the tick from running; but a store
exception raised while processing one due task abandons the remaining due
tasks of that tick - the `try`/`except` of `run_scheduler` wraps the whole
`for` loop, not each task - although subsequent ticks still run
unconditionally. -/
theorem c2_scheduler_isolation :
    (∀ (fromiso : List Char → Option Int) (db : DB)
        (oracle : Nat → TaskOracle) (resFn : Nat → SandboxRes) (now : Int),
        (∀ k, oracle k = TaskOracle.runs (resFn k)) →
        (db.tasks.map Task.id).Nodup →
        ∀ (j : Nat) (hj : j < (get_due_tasks db.tasks now).length),
          get_by_id (scheduler_tick fromiso db oracle now).tasks
              ((get_due_tasks db.tasks now).get ⟨j, hj⟩).id
            = some (apply_run_update fromiso
                ((get_due_tasks db.tasks now).get ⟨j, hj⟩).id
                (result_text (resFn j))
                ((get_due_tasks db.tasks now).get ⟨j, hj⟩).cron now
                ((get_due_tasks db.tasks now).get ⟨j, hj⟩))) ∧
    (∀ (fromiso : List Char → Option Int) (db : DB)
        (oracle : Nat → TaskOracle) (msgFn : Nat → List Char) (now : Int),
        (∀ k, oracle k = TaskOracle.runs (SandboxRes.error (msgFn k))) →
        (db.tasks.map Task.id).Nodup →
        ∀ (j : Nat) (hj : j < (get_due_tasks db.tasks now).length),
          ∃ u, get_by_id (scheduler_tick fromiso db oracle now).tasks
              ((get_due_tasks db.tasks now).get ⟨j, hj⟩).id = some u ∧
            u.last_result = some ((msgFn j).take 500) ∧
            u.last_run = some now) ∧
    (∀ (fromiso : List Char → Option Int) (db : DB)
        (oracle : Nat → TaskOracle) (now : Int),
        oracle 0 = TaskOracle.raises →
        scheduler_tick fromiso db oracle now = db) ∧
    (∀ (fromiso : List Char → Option Int) (db : DB)
        (oracles : Nat → Nat → TaskOracle) (times : Nat → Int) (k : Nat),
        run_scheduler fromiso db oracles times (k + 1)
          = scheduler_tick fromiso (run_scheduler fromiso db oracles times k)
              (oracles k) (times k)) := by
  refine ⟨scheduler_tick_runs_spec, ?_, ?_, ?_⟩
  · intro fromiso db oracle msgFn now hor hnd j hj
    refine ⟨_, scheduler_tick_runs_spec fromiso db oracle
      (fun k => SandboxRes.error (msgFn k)) now hor hnd j hj, ?_, ?_⟩
    · show (apply_run_update fromiso _ _ _ now _).last_result
        = some ((msgFn j).take 500)
      unfold apply_run_update
      rw [if_pos (by simp)]
      rfl
    · show (apply_run_update fromiso _ _ _ now _).last_run = some now
      unfold apply_run_update
      rw [if_pos (by simp)]
  · intro fromiso db oracle now h
    unfold scheduler_tick
    cases hd : get_due_tasks db.tasks now with
    | nil => rfl
    | cons t rest => rw [tick_go.eq_2, h]
  · intro fromiso db oracles times k
    rfl

/-- Claim C2 is false as stated: with two due tasks and a store exception
raised while processing the first, the whole tick aborts - the failure is
not captured in the first task's `last_result`, and the second due task is
not executed in that tick (its row, like the whole state, is unchanged). -/
theorem c2_scheduler_isolation_counterexample :
    get_due_tasks c2_db.tasks 20 = [c2_task_a, c2_task_b] ∧
    scheduler_tick iso_none c2_db c2_oracle_raise 20 = c2_db ∧
    (get_by_id (scheduler_tick iso_none c2_db c2_oracle_raise 20).tasks
        (("b2").data)).map (fun t => t.last_run) = some none ∧
    (get_by_id (scheduler_tick iso_none c2_db c2_oracle_raise 20).tasks
        (("a1").data)).map (fun t => t.last_result) = some none := by
  refine ⟨by decide, by decide, by decide, by decide⟩

theorem c2_scheduler_isolation_witness :
    get_by_id (scheduler_tick iso_none c2_db c2_oracle_fail 20).tasks
        (("a1").data)
      = some (apply_run_update iso_none (("a1").data) (("boom").data)
          (("@hourly").data) 20 c2_task_a) ∧
    get_by_id (scheduler_tick iso_none c2_db c2_oracle_fail 20).tasks
        (("b2").data)
      = some (apply_run_update iso_none (("b2").data) (("boom").data)
          (("@hourly").data) 20 c2_task_b) ∧
    scheduler_tick iso_none c2_db c2_oracle_raise 20 = c2_db ∧
    run_scheduler iso_none c2_db (fun _ => c2_oracle_fail) (fun _ => 20) 1
      = scheduler_tick iso_none
          (run_scheduler iso_none c2_db (fun _ => c2_oracle_fail)
            (fun _ => 20) 0) c2_oracle_fail 20 := by
  refine ⟨?_, ?_, ?_, ?_⟩
  · exact c2_scheduler_isolation.1 iso_none c2_db c2_oracle_fail
      (fun _ => SandboxRes.error (("boom").data)) 20 (fun _ => rfl)
      (by decide) 0 (by decide)
  · exact c2_scheduler_isolation.1 iso_none c2_db c2_oracle_fail
      (fun _ => SandboxRes.error (("boom").data)) 20 (fun _ => rfl)
      (by decide) 1 (by decide)
  · exact c2_scheduler_isolation.2.2.1 iso_none c2_db c2_oracle_raise 20 rfl
  · exact c2_scheduler_isolation.2.2.2 iso_none c2_db
      (fun _ => c2_oracle_fail) (fun _ => 20) 0

/-! ### Claim C8 -/

theorem race_count_append_canonical (name : List Char) (gs : List Group) :
    race_count name (gs ++ [race_canonical name]) = race_count name gs + 1 := by
  unfold race_count
  rw [List.filter_append]
  simp [race_canonical]

theorem mem_count_pos (name : List Char) (gs : List Group) (g : Group)
    (hg : g ∈ gs) (hn : g.name = name) : 1 ≤ race_count name gs := by
  unfold race_count
  have hmem : g ∈ gs.filter (fun x => x.name == name) :=
    List.mem_filter.mpr ⟨hg, by simp [hn]⟩
  exact List.length_pos.mpr (List.ne_nil_of_mem hmem)

theorem count_zero_of_none (name : List Char) (gs : List Group)
    (h : find_group gs name = none) : race_count name gs = 0 := by
  unfold race_count
  rw [List.length_eq_zero, List.filter_eq_nil_iff]
  intro g hg
  have := List.find?_eq_none.mp h g hg
  simpa using this

theorem find_group_some_facts (gs : List Group) (name : List Char) (g : Group)
    (h : find_group gs name = some g) : g ∈ gs ∧ g.name = name := by
  unfold find_group at h
  exact ⟨List.mem_of_find?_eq_some h, eq_of_beq (by simpa using List.find?_some h)⟩

theorem race_step_inv (name : List Char) (g0 : List Group)
    (h0 : ∀ g ∈ g0, g.name ≠ name) (st : RaceState) (i : Nat)
    (hinv : race_inv name g0 st) :
    race_inv name g0 (caller_step name st i) := by
  obtain ⟨hA, hB, hC⟩ := hinv
  unfold caller_step
  cases hph : st.callers[i]? with
  | none => exact ⟨hA, hB, hC⟩
  | some ph =>
    have hmem : ph ∈ st.callers := List.getElem?_mem hph
    have hph_inv := hC ph hmem
    cases ph with
    | start =>
      refine ⟨hA, hB, ?_⟩
      intro ph2 hph2
      rcases List.mem_or_eq_of_mem_set hph2 with hold | hnew
      · exact hC ph2 hold
      · subst hnew
        refine ⟨?_, fun g hg => absurd hg (by simp), ?_⟩
        · intro g hg
          have hfind : find_group st.groups name = some g := by
            injection hg
          obtain ⟨hmemg, hname⟩ := find_group_some_facts st.groups name g hfind
          have hcan : g = race_canonical name := by
            rcases hB g hmemg with h1 | h1
            · exact absurd hname (h0 g h1)
            · exact h1
          exact ⟨hcan, mem_count_pos name st.groups g hmemg hname⟩
        · intro hd
          rcases hd with hd | ⟨g, hd⟩ <;> simp at hd
    | selected row =>
      cases row with
      | some g =>
        have hg := hph_inv.1 g rfl
        refine ⟨hA, hB, ?_⟩
        intro ph2 hph2
        rcases List.mem_or_eq_of_mem_set hph2 with hold | hnew
        · exact hC ph2 hold
        · subst hnew
          refine ⟨fun g2 hg2 => absurd hg2 (by simp), ?_, fun _ => hg.2⟩
          intro g2 hg2
          have he : g = g2 := by injection hg2
          exact he ▸ hg.1
      | none =>
        cases hfind : find_group st.groups name with
        | some gfound =>
          obtain ⟨hmemg, hname⟩ :=
            find_group_some_facts st.groups name gfound hfind
          have hcnt : 1 ≤ race_count name st.groups :=
            mem_count_pos name st.groups gfound hmemg hname
          refine ⟨hA, hB, ?_⟩
          intro ph2 hph2
          rcases List.mem_or_eq_of_mem_set hph2 with hold | hnew
          · exact hC ph2 hold
          · subst hnew
            exact ⟨fun g2 hg2 => absurd hg2 (by simp),
                   fun g2 hg2 => absurd hg2 (by simp),
                   fun _ => hcnt⟩
        | none =>
          have hzero : race_count name st.groups = 0 :=
            count_zero_of_none name st.groups hfind
          have hcnt : race_count name (st.groups ++ [race_canonical name])
              = 1 := by
            rw [race_count_append_canonical, hzero]
          refine ⟨?_, ?_, ?_⟩
          · show race_count name (st.groups ++ [race_canonical name]) ≤ 1
            rw [hcnt]
          · intro g hg
            rcases List.mem_append.mp hg with h1 | h1
            · exact hB g h1
            · right
              simpa using h1
          · intro ph2 hph2
            have hcm : 1 ≤ race_count name (st.groups ++ [race_canonical name]) := by
              rw [hcnt]
            rcases List.mem_or_eq_of_mem_set hph2 with hold | hnew
            · obtain ⟨d1, d2, _⟩ := hC ph2 hold
              exact ⟨fun g2 hg2 => ⟨(d1 g2 hg2).1, hcm⟩, d2, fun _ => hcm⟩
            · subst hnew
              refine ⟨fun g2 hg2 => absurd hg2 (by simp), ?_, fun _ => hcm⟩
              intro g2 hg2
              have he : race_canonical name = g2 := by injection hg2
              exact he.symm
    | done_ok g => exact ⟨hA, hB, hC⟩
    | done_err => exact ⟨hA, hB, hC⟩

theorem race_run_inv (name : List Char) (g0 : List Group)
    (h0 : ∀ g ∈ g0, g.name ≠ name) :
    ∀ (sched : List Nat) (st : RaceState),
      race_inv name g0 st → race_inv name g0 (run_race name st sched) := by
  intro sched
  induction sched with
  | nil => intro st h; exact h
  | cons i rest ih =>
    intro st h
    exact ih (caller_step name st i) (race_step_inv name g0 h0 st i h)

theorem race_inv_init (name : List Char) (g0 : List Group)
    (ph0 : List CallerPhase) (h0 : ∀ g ∈ g0, g.name ≠ name)
    (hc : ∀ ph ∈ ph0, ph = CallerPhase.start) :
    race_inv name g0 { groups := g0, callers := ph0 } := by
  have hz : race_count name g0 = 0 := by
    unfold race_count
    rw [List.length_eq_zero, List.filter_eq_nil_iff]
    intro g hg
    simp [h0 g hg]
  refine ⟨by rw [hz]; omega, fun g hg => Or.inl hg, ?_⟩
  intro ph hph
  rw [hc ph hph]
  exact ⟨fun g hg => absurd hg (by simp), fun g hg => absurd hg (by simp),
         fun hd => by rcases hd with hd | ⟨g, hd⟩ <;> simp at hd⟩

/-- Claim C8 (amended): in every interleaving of N concurrent
`get_or_create_group(name)` invocations over a store with no row named
`name`, at most one row named `name` is ever created - and exactly one once
any invocation has finished - always the canonical row whose folder is the
lower-cased, hyphenated slug of `name`; every invocation that returns,
returns that row.  But not every invocation returns it: an invocation whose
`INSERT` races with another's committed row raises
`sqlite3.IntegrityError` instead (the code has no retry-on-conflict). -/
theorem c8_get_or_create_race (name : List Char) (g0 : List Group)
    (ph0 : List CallerPhase) (sched : List Nat)
    (h0 : ∀ g ∈ g0, g.name ≠ name)
    (hc : ∀ ph ∈ ph0, ph = CallerPhase.start) :
    race_count name
        (run_race name { groups := g0, callers := ph0 } sched).groups ≤ 1 ∧
    (∀ g ∈ (run_race name { groups := g0, callers := ph0 } sched).groups,
        g ∉ g0 →
        g = { name := name, folder := slug_of name, session_id := none }) ∧
    (∀ g, CallerPhase.done_ok g
        ∈ (run_race name { groups := g0, callers := ph0 } sched).callers →
        g = { name := name, folder := slug_of name, session_id := none }) ∧
    ((∃ ph ∈ (run_race name { groups := g0, callers := ph0 } sched).callers,
        ph = CallerPhase.done_err ∨ ∃ g, ph = CallerPhase.done_ok g) →
      race_count name
        (run_race name { groups := g0, callers := ph0 } sched).groups = 1) := by
  obtain ⟨hA, hB, hC⟩ :=
    race_run_inv name g0 h0 sched _ (race_inv_init name g0 ph0 h0 hc)
  refine ⟨hA, ?_, ?_, ?_⟩
  · intro g hg hg0
    rcases hB g hg with h1 | h1
    · exact absurd h1 hg0
    · exact h1
  · intro g hdone
    exact (hC _ hdone).2.1 g rfl
  · rintro ⟨ph, hph, hd⟩
    have h1 := (hC ph hph).2.2 hd
    omega

/-- Claim C8 is false as stated: two concurrent invocations over an empty
store, interleaved select-select-insert-insert, leave exactly one row
`("Foo Bar", "foo-bar")`, but the second caller's `INSERT` violates the
unique constraint and raises instead of returning the group. -/
theorem c8_get_or_create_race_counterexample :
    run_race (("Foo Bar").data) c8_init [0, 1, 0, 1]
      = { groups := [c8_row],
          callers := [CallerPhase.done_ok c8_row, CallerPhase.done_err] } := by
  decide

theorem c8_get_or_create_race_witness :
    race_count (("Foo Bar").data)
        (run_race (("Foo Bar").data) c8_init [0, 1, 0, 1]).groups ≤ 1 ∧
    (∀ g, CallerPhase.done_ok g
        ∈ (run_race (("Foo Bar").data) c8_init [0, 1, 0, 1]).callers →
        g = { name := ("Foo Bar").data, folder := slug_of (("Foo Bar").data),
              session_id := none }) ∧
    ((∃ ph ∈ (run_race (("Foo Bar").data) c8_init [0, 1, 0, 1]).callers,
        ph = CallerPhase.done_err ∨ ∃ g, ph = CallerPhase.done_ok g) →
      race_count (("Foo Bar").data)
        (run_race (("Foo Bar").data) c8_init [0, 1, 0, 1]).groups = 1) := by
  have h := c8_get_or_create_race (("Foo Bar").data) []
    [CallerPhase.start, CallerPhase.start] [0, 1, 0, 1]
    (fun g hg => absurd hg (List.not_mem_nil g)) (by decide)
  exact ⟨h.1, h.2.2.1, h.2.2.2⟩

end Hermit
